import Mathlib

/-!
Shallow embedding of the gads-creator repository (a Next.js dashboard wrapping
the Google Ads API) and proofs about the claims on its specification.

Modelling conventions:
  * Network calls, SDK calls and other effectful steps are parameters
    ("oracles") of type `Except String α`: `.error` models a thrown
    exception, `.ok` a successful resolution of the awaited promise.
  * JavaScript strings are Lean `String`s; JS `undefined` string fields are
    `Option String` with `none`.
  * JS numbers that carry money amounts (`budget`, `maxCpc`) are rationals.
  * Timestamps (`Date.now()`) are naturals counting milliseconds.
-/

deriving instance DecidableEq for Except

namespace GadsCreator

/-! ## JavaScript string primitives used by the source -/

/-- Whether the char list `p` is an initial segment of `l`
(JS `String.prototype.startsWith` on exploded strings). -/
def startsWithL : List Char → List Char → Bool
  | _, [] => true
  | [], _ :: _ => false
  | a :: as, b :: bs => a = b && startsWithL as bs

/-- Whether the char list `sub` occurs contiguously inside `l`
(JS `String.prototype.includes` on exploded strings). -/
def containsSeq : List Char → List Char → Bool
  | [], sub => sub.isEmpty
  | a :: as, sub => startsWithL (a :: as) sub || containsSeq as sub

/-- JS `s.startsWith(p)`. -/
def strStartsWith (s p : String) : Bool :=
  startsWithL s.toList p.toList

/-- JS `s.includes(sub)`. -/
def jsIncludes (s sub : String) : Bool :=
  containsSeq s.toList sub.toList

/-- JS `s.split('/')[1]`.  When the string has no `/`, the JS expression is
`undefined`; everywhere the source uses this value it is interpolated into a
template literal (where `undefined` renders as the string `undefined`) or
compared with `!==` against a customer id, so we keep that rendering. -/
def jsSplit1 (s : String) : String :=
  match (s.splitOn ("/")).get? 1 with
  | some t => t
  | none => "undefined"

/-- JS template-literal rendering of a possibly-undefined string
(`session.user?.email` and similar). -/
def jsStr (s : Option String) : String :=
  match s with
  | some v => v
  | none => "undefined"

/-- JS truthy-or on two possibly-absent strings: `a || b` picks `a` when it is
present and non-empty. -/
def jsOrStr (a : Option String) (b : String) : String :=
  match a with
  | some v => if v = "" then b else v
  | none => b

/-! ## `src/lib/googleAds.ts`: data model and mock data -/

/-- The `CustomerAccount` interface of `src/lib/googleAds.ts`. -/
structure CustomerAccount where
  id : String
  resourceName : String
  displayName : Option String
  isMCC : Option Bool
  parentId : Option String
  deriving Repr, DecidableEq

/-- The hard-coded `MOCK_CUSTOMER_ACCOUNTS` list. -/
def MOCK_CUSTOMER_ACCOUNTS : List CustomerAccount :=
  [ { id := "1234567890", resourceName := "customers/1234567890",
      displayName := some ("Test Account 1"), isMCC := some false, parentId := none },
    { id := "9876543210", resourceName := "customers/9876543210",
      displayName := some ("Test MCC Account"), isMCC := some true, parentId := none },
    { id := "5555555555", resourceName := "customers/5555555555",
      displayName := some ("Sub Account 1"), isMCC := some false,
      parentId := some ("9876543210") } ]

/-! ## `GoogleAdsClient` constructor: credential check and mock mode -/

/-- Truthiness-plus-length check the constructor applies to one credential:
`cred && cred.length > 10`.  `none` models an absent (`undefined`) argument. -/
def credentialOk (cred : Option String) : Bool :=
  match cred with
  | none => false
  | some v => v ≠ "" && v.length > 10

/-- The `hasValidCredentials` conjunction of the constructor. -/
def hasValidCredentials (developerToken : String)
    (clientId clientSecret : Option String) : Bool :=
  (developerToken ≠ "" && developerToken.length > 10) &&
    credentialOk clientId && credentialOk clientSecret

/-- The `useMockData` flag computed by the constructor:
mock mode when credentials are invalid or when running client-side. -/
def useMockData (developerToken : String) (clientId clientSecret : Option String)
    (isClientSide : Bool) : Bool :=
  !hasValidCredentials developerToken clientId clientSecret || isClientSide

/-! ## Listing strategies and their oracles -/

/-- The account-listing strategies appearing in `src/lib/googleAds.ts`, plus
the `fallbackList` strategy that the specification claims exists.  A run of a
client method is summarised by the list of strategies it attempted, in order. -/
inductive Strategy where
  | directRest
  | sdk
  | gaqlQuery
  | v11Api
  | managerRest
  | fallbackList
  deriving Repr, DecidableEq

/-- Effect oracle for `getAccessibleCustomers`: the outcome of
`validateRefreshToken`, of the direct REST call
(`getAccountsDirectRestApi`, yielding the `resourceNames` payload) and of the
SDK `listAccessibleCustomers` call. -/
structure AccessOracle where
  tokenValid : Bool
  directRest : Except String (List String)
  sdk : Except String (List String)
  deriving Repr, DecidableEq

/-- `GoogleAdsClient.getAccessibleCustomers`.  Returns the result observed by
the caller together with the trace of listing strategies attempted.  In mock
mode the mock resource names are returned and no strategy runs.  Otherwise the
refresh token is validated, the direct REST implementation is tried first,
and only on its failure the SDK call; any error escaping the body is wrapped
into the enhanced `Failed to fetch Google Ads accounts` error by the outer
catch. -/
def getAccessibleCustomers (mock : Bool) (o : AccessOracle) :
    Except String (List String) × List Strategy :=
  if mock then
    (.ok (MOCK_CUSTOMER_ACCOUNTS.map (·.resourceName)), [])
  else if !o.tokenValid then
    (.error ("Failed to fetch Google Ads accounts: Refresh token validation failed"), [])
  else
    match o.directRest with
    | .ok r => (.ok r, [.directRest])
    | .error _ =>
      match o.sdk with
      | .ok r => (.ok r, [.directRest, .sdk])
      | .error e =>
        (.error ("Failed to fetch Google Ads accounts: " ++ e), [.directRest, .sdk])

/-! ## Sub-account listing (`getSubAccounts`, `listAccountsViaV11`) -/

/-- One row of the GAQL `customer_client` response (`row.customer_client`
when present; a row with `customer_client == null` is modelled as `none`
one level up). -/
structure GaqlClientInfo where
  client_customer : Option String
  id : Option String
  descriptive_name : Option String
  manager : Bool
  deriving Repr, DecidableEq

/-- Processing of a single GAQL row inside `getSubAccounts`:
rows whose `customer_client` is null are filtered out, the id is
`String(clientInfo?.client_customer || clientInfo?.id || '')`, the MCC itself
and empty ids are skipped, and the remaining rows become sub-accounts with
`parentId` set to the requested MCC. -/
def processGaqlRow (mccId : String) (row : Option GaqlClientInfo) :
    Option CustomerAccount :=
  match row with
  | none => none
  | some ci =>
    let id := jsOrStr ci.client_customer (jsOrStr ci.id (""))
    if id = mccId ∨ id = "" then none
    else
      some { id := id,
             resourceName := "customers/" ++ id,
             displayName := some (jsOrStr ci.descriptive_name ("Account " ++ id)),
             isMCC := some ci.manager,
             parentId := some mccId }

/-- One `customerClient` object of the v11 `searchStream` response.  A result
row without a `customerClient` field is modelled as `none` one level up. -/
structure V11Client where
  id : String
  descriptiveName : Option String
  manager : Bool
  deriving Repr, DecidableEq

/-- Processing of one v11 result row in `listAccountsViaV11`: rows without
`customerClient` contribute nothing, the MCC itself is skipped, the rest
become sub-accounts of the MCC. -/
def processV11Row (mccId : String) (row : Option V11Client) :
    Option CustomerAccount :=
  match row with
  | none => none
  | some c =>
    if c.id = mccId then none
    else
      some { id := c.id,
             resourceName := "customers/" ++ c.id,
             displayName := some (jsOrStr c.descriptiveName ("Account " ++ c.id)),
             isMCC := some c.manager,
             parentId := some mccId }

/-- Oracle for the strategies of `getSubAccounts`:
  * `gaql`: the SDK GAQL query; `.ok rows` is the response array, where each
    element is `row.customer_client` (`none` when null);
  * `v11`: everything inside `listAccountsViaV11` up to the parsed
    `streamData`; `.ok none` models a response whose `results` is not an
    array, `.error` any thrown step;
  * `managerRest`: the `v15 customers/{mccId}:listAccessibleCustomers` call;
    `.ok none` models a JSON body without a `resourceNames` array. -/
structure SubOracle where
  gaql : Except String (List (Option GaqlClientInfo))
  v11 : Except String (Option (List (Option V11Client)))
  managerRest : Except String (Option (List String))
  deriving Repr, DecidableEq

/-- `GoogleAdsClient.listAccountsViaV11`: total over errors, returning `[]`
whenever any internal step throws or the response has no results array. -/
def listAccountsViaV11 (mccId : String)
    (v : Except String (Option (List (Option V11Client)))) : List CustomerAccount :=
  match v with
  | .error _ => []
  | .ok none => []
  | .ok (some results) => results.filterMap (processV11Row mccId)

/-- Accounts produced by the GAQL strategy of `getSubAccounts`
(`[]` when the query throws, which the surrounding `catch` swallows). -/
def gaqlStep (mccId : String) (g : Except String (List (Option GaqlClientInfo))) :
    List CustomerAccount :=
  match g with
  | .error _ => []
  | .ok rows => rows.filterMap (processGaqlRow mccId)

/-- Accounts produced by the client-manager REST strategy of
`getSubAccounts`: each returned resource name is split on `/`, the MCC id is
filtered out, and the remaining ids become sub-accounts with `isMCC` false. -/
def managerStep (mccId : String) (m : Except String (Option (List String))) :
    List CustomerAccount :=
  match m with
  | .error _ => []
  | .ok none => []
  | .ok (some rns) =>
    let clientIds := (rns.map jsSplit1).filter (fun id => id ≠ mccId)
    clientIds.map (fun id =>
      { id := id,
        resourceName := "customers/" ++ id,
        displayName := some ("Account " ++ id),
        isMCC := some false,
        parentId := some mccId })

/-- `GoogleAdsClient.getSubAccounts`.  In mock mode it filters the mock
accounts by `parentId`.  Otherwise it runs the GAQL query, then the v11
compatibility call, then the client-manager REST call, each guarded by its
own `catch` and each abandoned when it yields no accounts, and finally
returns the empty list.  The trace records the strategies attempted. -/
def getSubAccounts (mock : Bool) (mccId : String) (o : SubOracle) :
    Except String (List CustomerAccount) × List Strategy :=
  if mock then
    (.ok (MOCK_CUSTOMER_ACCOUNTS.filter (fun a => a.parentId = some mccId)), [])
  else if gaqlStep mccId o.gaql ≠ [] then
    (.ok (gaqlStep mccId o.gaql), [.gaqlQuery])
  else if listAccountsViaV11 mccId o.v11 ≠ [] then
    (.ok (listAccountsViaV11 mccId o.v11), [.gaqlQuery, .v11Api])
  else if managerStep mccId o.managerRest ≠ [] then
    (.ok (managerStep mccId o.managerRest), [.gaqlQuery, .v11Api, .managerRest])
  else
    (.ok [], [.gaqlQuery, .v11Api, .managerRest])

/-! ## `getMCCAccounts` and `createSearchCampaign` -/

/-- Oracle for `getMCCAccounts`: token validation, the direct REST attempt
(`.ok none` models a payload without a `resourceNames` array), and the
oracle of the `getAccessibleCustomers` fallback. -/
structure MccOracle where
  tokenValid : Bool
  directRest : Except String (Option (List String))
  accessible : AccessOracle
  deriving Repr, DecidableEq

/-- Formatting of direct-REST resource names in `getMCCAccounts`
(`isMCC: false`, the id taken from the second `/`-segment). -/
def formatDirectAccounts (rns : List String) : List CustomerAccount :=
  rns.map (fun rn =>
    let customerId := jsSplit1 rn
    { id := customerId,
      resourceName := rn,
      displayName := some ("Account " ++ customerId),
      isMCC := some false,
      parentId := none })

/-- Formatting of `getAccessibleCustomers` resource names in the fallback
branch of `getMCCAccounts` (every account marked as a potential MCC). -/
def formatAccessibleAccounts (rns : List String) : List CustomerAccount :=
  rns.map (fun rn =>
    let customerId := jsSplit1 rn
    { id := customerId,
      resourceName := rn,
      displayName := some ("Account " ++ customerId),
      isMCC := some true,
      parentId := none })

/-- `GoogleAdsClient.getMCCAccounts`: mock accounts in mock mode; otherwise
validate the token (a failure propagates), try the direct REST listing, and
fall back to `getAccessibleCustomers` (whose failure also propagates). -/
def getMCCAccounts (mock : Bool) (o : MccOracle) :
    Except String (List CustomerAccount) :=
  if mock then .ok MOCK_CUSTOMER_ACCOUNTS
  else if !o.tokenValid then .error ("Refresh token validation failed")
  else
    match o.directRest with
    | .ok (some rns) => .ok (formatDirectAccounts rns)
    | _ =>
      match (getAccessibleCustomers false o.accessible).1 with
      | .error e => .error e
      | .ok rns => .ok (formatAccessibleAccounts rns)

/-- The `CreateCampaignParams` interface. -/
structure CreateCampaignParams where
  customerId : String
  name : String
  budget : ℚ
  maxCpc : ℚ
  headlines : List String
  descriptions : List String
  deriving Repr, DecidableEq

/-- The object returned by `createSearchCampaign`. -/
structure CampaignResult where
  success : Bool
  campaignId : String
  message : String
  deriving Repr, DecidableEq

/-- `GoogleAdsClient.createSearchCampaign`.  `nowMs` is `Date.now()`;
`sdkInit` is the dynamic import plus `client.Customer` setup, the only
fallible step of the non-mock branch (its error is rethrown by the catch).
Both branches construct the success result unconditionally; the parameter
check in the source guards an empty block and influences nothing. -/
def createSearchCampaign (mock : Bool) (_params : CreateCampaignParams)
    (nowMs : Nat) (sdkInit : Except String Unit) : Except String CampaignResult :=
  if mock then
    .ok { success := true,
          campaignId := "Campaign_MOCK_" ++ toString nowMs,
          message := "Campaign created successfully (MOCK)" }
  else
    match sdkInit with
    | .error e => .error e
    | .ok _ =>
      .ok { success := true,
            campaignId := "Campaign_" ++ toString nowMs,
            message := "Campaign created successfully" }

/-! ## `src/lib/diagnostics.ts`: the diagnostic tracer -/

/-- One entry of `DiagnosticReport.traces`. -/
structure DiagnosticTrace where
  timestamp : String
  source : String
  message : String
  data : Option String
  deriving Repr, DecidableEq

/-- The tracer state relevant to trace accumulation: the `traces` array of
the current report and the `isActive` flag.  (The wall-clock fields and the
pending timeout do not influence which traces are retained.) -/
structure TracerState where
  traces : List DiagnosticTrace
  isActive : Bool
  deriving Repr, DecidableEq

/-- `DiagnosticTracer.start`: resets the report to an empty trace list and
activates the tracer. -/
def tracerStart : TracerState :=
  { traces := [], isActive := true }

/-- `DiagnosticTracer.addTrace`: pushes the entry onto `traces` when the
tracer is active, with no bound on the array length. -/
def addTrace (s : TracerState) (t : DiagnosticTrace) : TracerState :=
  if s.isActive then { s with traces := s.traces ++ [t] } else s

/-- A sequence of `addTrace` calls. -/
def addTraces (ts : List DiagnosticTrace) (s : TracerState) : TracerState :=
  ts.foldl addTrace s

/-- `DiagnosticTracer.end`: deactivates the tracer, leaving `traces` as is. -/
def tracerEnd (s : TracerState) : TracerState :=
  { s with isActive := false }

/-! ## `src/lib/serverLogger.ts`: the in-memory log store -/

/-- Log severity levels. -/
inductive LogLevel where
  | debug
  | info
  | warn
  | error
  deriving Repr, DecidableEq

/-- A `LogEntry` of the server logger. -/
structure LogEntry where
  id : String
  timestamp : String
  level : LogLevel
  context : String
  message : String
  data : Option String
  deriving Repr, DecidableEq

/-- The `MAX_MEMORY_LOGS` constant. -/
def MAX_MEMORY_LOGS : Nat := 100

/-- The memory-side effect of `persistLog` on `memoryLogs`: `unshift` the
entry, then truncate to the most recent `MAX_MEMORY_LOGS` entries.  (The
file-append branch does not touch `memoryLogs`.) -/
def persistLog (entry : LogEntry) (memoryLogs : List LogEntry) : List LogEntry :=
  let m := entry :: memoryLogs
  if m.length > MAX_MEMORY_LOGS then m.take MAX_MEMORY_LOGS else m

/-- `memoryLogs` after a sequence of logger calls appending the given
entries (oldest first), starting from the given store. -/
def logsAfter (entries : List LogEntry) (init : List LogEntry) : List LogEntry :=
  entries.foldl (fun s e => persistLog e s) init

/-- `getRecentLogs(limit, level?)`: optionally filter by level, then
`slice(0, limit)`. -/
def getRecentLogs (limit : Nat) (level : Option LogLevel)
    (memoryLogs : List LogEntry) : List LogEntry :=
  match level with
  | some lv => (memoryLogs.filter (fun l => l.level = lv)).take limit
  | none => memoryLogs.take limit

/-! ## `src/lib/validations/campaignSchema.ts`: the zod campaign schema -/

/-- The input record validated by `campaignSchema` (field values after JSON
parsing; `budget` and `maxCpc` as exact rationals). -/
structure CampaignInput where
  customerId : String
  name : String
  budget : ℚ
  maxCpc : ℚ
  headlines : List String
  descriptions : List String
  deriving Repr, DecidableEq

/-- Whether `campaignSchema.safeParse` succeeds on the input record,
transcribing each zod combinator of the source:
`customerId: string().min(1)`, `name: string().min(1).max(100)`,
`budget: number().min(1).max(10000)`, `maxCpc: number().min(0.01).max(1000)`,
`headlines: array(string().max(30).min(1)).length(10)`,
`descriptions: array(string().max(90).min(1)).min(1)`. -/
def campaignSchemaAccepts (d : CampaignInput) : Bool :=
  (d.customerId.length ≥ 1 : Bool) &&
  (d.name.length ≥ 1 && d.name.length ≤ 100) &&
  (decide ((1 : ℚ) ≤ d.budget) && decide (d.budget ≤ 10000)) &&
  (decide ((1 : ℚ)/100 ≤ d.maxCpc) && decide (d.maxCpc ≤ 1000)) &&
  (d.headlines.all (fun h => h.length ≤ 30 && h.length ≥ 1) &&
    d.headlines.length = 10) &&
  (d.descriptions.all (fun s => s.length ≤ 90 && s.length ≥ 1) &&
    d.descriptions.length ≥ 1)

/-! ## `src/app/api/google-ads/campaigns/route.ts`: the POST handler -/

/-- The request body of the campaigns POST route; `none` models an absent
field. -/
structure CampaignBody where
  customerId : Option String
  name : Option String
  budget : Option ℚ
  maxCpc : Option ℚ
  headlines : Option (List String)
  descriptions : Option (List String)
  deriving Repr, DecidableEq

/-- JS truthiness of a possibly-absent string. -/
def truthyStr (s : Option String) : Bool :=
  match s with
  | none => false
  | some v => v ≠ ""

/-- JS truthiness of a possibly-absent number. -/
def truthyNum (q : Option ℚ) : Bool :=
  match q with
  | none => false
  | some v => v ≠ 0

/-- JS truthiness of a possibly-absent array (arrays are always truthy). -/
def truthyArr (a : Option (List String)) : Bool :=
  match a with
  | none => false
  | some _ => true

/-- Responses of the campaigns POST route. -/
inductive PostResult where
  | unauthorized
  | badRequest (msg : String)
  | mccError (details : String)
  | apiError (msg : String)
  | created (r : CampaignResult)
  deriving Repr, DecidableEq

/-- The `isMCCError` test of the route's catch branch. -/
def isMCCErrorMessage (msg : String) : Bool :=
  jsIncludes msg ("manager") || jsIncludes msg ("MCC") || jsIncludes msg ("permission")

/-- The campaigns `POST` handler: authentication check, truthiness check of
the six body fields, headline-count / description-count / per-string length
validation (each failure a 400 response), then `createSearchCampaign`, whose
error is mapped to a 400 `MCC_ACCOUNT_ERROR` when the message mentions
manager, MCC or permission, and to a 500 otherwise. -/
def campaignsPOST (authenticated : Bool) (body : CampaignBody)
    (createResult : Except String CampaignResult) : PostResult :=
  if !authenticated then .unauthorized
  else if !truthyStr body.customerId || !truthyStr body.name ||
      !truthyNum body.budget || !truthyNum body.maxCpc ||
      !truthyArr body.headlines || !truthyArr body.descriptions then
    .badRequest ("Missing required campaign parameters")
  else
    let hs := body.headlines.getD []
    let ds := body.descriptions.getD []
    if hs.length ≠ 10 then .badRequest ("Exactly 10 headlines are required")
    else if ds.length < 1 then .badRequest ("At least one description is required")
    else if hs.any (fun h => h.length > 30) then
      .badRequest ("Headlines must be 30 characters or less")
    else if ds.any (fun d => d.length > 90) then
      .badRequest ("Descriptions must be 90 characters or less")
    else
      match createResult with
      | .ok r => .created r
      | .error e => if isMCCErrorMessage e then .mccError e else .apiError e

/-! ## `src/app/api/google-ads/accounts/hierarchy/route.ts`: GET + cache -/

/-- The payload of a successful hierarchy response (`success: true`).
`warnings` is present exactly when one of the two fetches failed and records
`(mccAccountsFetchError?, subAccountsFetchError?)`.  (The optional `debug`
block only echoes request parameters and environment flags and is omitted.) -/
structure HierarchyData where
  mccAccount : CustomerAccount
  subAccounts : List CustomerAccount
  warnings : Option (Bool × Bool)
  deriving Repr, DecidableEq

/-- One value of the `hierarchyCache` map. -/
structure CacheEntry where
  data : HierarchyData
  timestamp : Nat
  deriving Repr, DecidableEq

/-- The process-local `hierarchyCache`, a JS `Map` from string keys to
entries, modelled as an association list with `Map.get`/`set`/`delete`
semantics. -/
def HierarchyCache := List (String × CacheEntry)

/-- JS `Map.prototype.get`. -/
def cacheGet (c : HierarchyCache) (k : String) : Option CacheEntry :=
  (c.find? (fun p => p.1 = k)).map (fun p => p.2)

/-- JS `Map.prototype.set` (replaces any existing binding of the key). -/
def cacheSet (c : HierarchyCache) (k : String) (e : CacheEntry) : HierarchyCache :=
  (c.filter (fun p => p.1 ≠ k)) ++ [(k, e)]

/-- JS `Map.prototype.delete`. -/
def cacheDelete (c : HierarchyCache) (k : String) : HierarchyCache :=
  c.filter (fun p => p.1 ≠ k)

/-- The `CACHE_TTL` constant: one hour in milliseconds. -/
def CACHE_TTL : Nat := 60 * 60 * 1000

/-- The cache key built by the route:
`hierarchy-${mccId}-${session.user?.email}`. -/
def cacheKey (mccId : String) (email : Option String) : String :=
  "hierarchy-" ++ mccId ++ "-" ++ jsStr email

/-- Responses of the hierarchy GET route.  The two 500 handlers of the source
are unreachable in this embedding because every fetch failure is already
handled inline, so they have no constructor. -/
inductive RouteResponse where
  | missingMccId
  | notAuthenticated
  | missingRefreshToken
  | mccNotFound
  | success (d : HierarchyData)
  deriving Repr, DecidableEq

/-- One GET request to the hierarchy route: query parameters, session
fields, the current time, and the outcomes of the two Google Ads client
calls the handler would make. -/
structure RouteRequest where
  mccId : Option String
  clearCache : Bool
  hasSession : Bool
  email : Option String
  hasRefreshToken : Bool
  now : Nat
  mccFetch : Except String (List CustomerAccount)
  subFetch : Except String (List CustomerAccount)
  deriving Repr, DecidableEq

/-- The account list observed by the handler after one of its guarded
fetches: the fetched list on success, the empty list when the call threw
(the error is caught and recorded). -/
def fetchedList (f : Except String (List CustomerAccount)) : List CustomerAccount :=
  match f with
  | .ok l => l
  | .error _ => []

/-- Whether a guarded fetch threw (the recorded `...FetchError` is non-null). -/
def fetchFailed (f : Except String (List CustomerAccount)) : Bool :=
  match f with
  | .ok _ => false
  | .error _ => true

/-- The placeholder MCC account synthesized when the MCC listing failed and
the requested id was not found in it. -/
def placeholderMcc (mccId : String) : CustomerAccount :=
  { id := mccId, resourceName := "customers/" ++ mccId,
    displayName := some ("MCC Account " ++ mccId),
    isMCC := some true, parentId := none }

/-- The `success: true` response payload built by the handler from the
resolved MCC account: sub-accounts from the guarded `getSubAccounts` call,
and a `warnings` block exactly when one of the two fetches failed. -/
def freshData (mccAccount : CustomerAccount) (r : RouteRequest) : HierarchyData :=
  { mccAccount := mccAccount,
    subAccounts := fetchedList r.subFetch,
    warnings :=
      if fetchFailed r.mccFetch || fetchFailed r.subFetch then
        some (fetchFailed r.mccFetch, fetchFailed r.subFetch)
      else none }

/-- The fresh-fetch part of the handler, entered after the cache check:
fetch MCC accounts (an error is recorded and leaves the list empty), look up
the requested id, synthesize a placeholder on a fetch error, force
`isMCC: true`, fetch sub-accounts (an error leaves them empty), build the
`success: true` payload and cache it under the key with the current time;
a 404 `MCC_NOT_FOUND` when the listing succeeded but lacks the id.
Returns the response and the updated cache. -/
def hierarchyFresh (cache : HierarchyCache) (key : String) (mccId : String)
    (r : RouteRequest) : RouteResponse × HierarchyCache :=
  match (fetchedList r.mccFetch).find? (fun a => a.id = mccId) with
  | some acc =>
    (.success (freshData { acc with isMCC := some true } r),
     cacheSet cache key
       { data := freshData { acc with isMCC := some true } r, timestamp := r.now })
  | none =>
    if fetchFailed r.mccFetch then
      (.success (freshData (placeholderMcc mccId) r),
       cacheSet cache key
         { data := freshData (placeholderMcc mccId) r, timestamp := r.now })
    else (.mccNotFound, cache)

/-- The hierarchy `GET` handler.  Returns the response, the cache after the
request, and whether the Google Ads client was invoked (`false` exactly on
the early returns and the cache hit). -/
def hierarchyGET (cache : HierarchyCache) (r : RouteRequest) :
    RouteResponse × HierarchyCache × Bool :=
  match r.mccId with
  | none => (.missingMccId, cache, false)
  | some mccId =>
    if !r.hasSession then (.notAuthenticated, cache, false)
    else if !r.hasRefreshToken then (.missingRefreshToken, cache, false)
    else
      let key := cacheKey mccId r.email
      let cache1 := if r.clearCache then cacheDelete cache key else cache
      match cacheGet cache1 key with
      | some e =>
        if r.now - e.timestamp < CACHE_TTL && !r.clearCache then
          (.success e.data, cache1, false)
        else
          ((hierarchyFresh cache1 key mccId r).1,
           (hierarchyFresh cache1 key mccId r).2, true)
      | none =>
        ((hierarchyFresh cache1 key mccId r).1,
         (hierarchyFresh cache1 key mccId r).2, true)

/-! ## Helper lemmas -/

theorem startsWithL_append (l r : List Char) : startsWithL (l ++ r) l = true := by
  induction l with
  | nil => cases r <;> simp [startsWithL]
  | cons a as ih => simp [startsWithL, ih]

theorem strAppend_data (a b : String) : (a ++ b).data = a.data ++ b.data := by
  obtain ⟨la⟩ := a
  obtain ⟨lb⟩ := b
  rfl

theorem strStartsWith_append (p t : String) : strStartsWith (p ++ t) p = true := by
  show startsWithL (p ++ t).data p.data = true
  rw [strAppend_data]
  exact startsWithL_append p.data t.data

theorem strAppend_assoc (a b c : String) : (a ++ b) ++ c = a ++ (b ++ c) := by
  obtain ⟨la⟩ := a
  obtain ⟨lb⟩ := b
  obtain ⟨lc⟩ := c
  show String.mk ((la ++ lb) ++ lc) = String.mk (la ++ (lb ++ lc))
  rw [List.append_assoc]

theorem one_le_length_iff (s : String) : 1 ≤ s.length ↔ s ≠ "" := by
  obtain ⟨l⟩ := s
  rw [String.length_mk, Ne, String.ext_iff]
  show 1 ≤ l.length ↔ ¬ (l = [])
  cases l <;> simp

/-! ## Claim C4: createSearchCampaign always reports success -/

/-- Claim C4: whenever `createSearchCampaign` returns without throwing, the
returned object has `success = true` and a `campaignId` beginning with
`Campaign_`; moreover in non-mock mode the returned value does not depend on
the campaign parameters at all, so no parameter choice can produce a
returned failure. -/
theorem claim_C4 :
    (∀ (mock : Bool) (p : CreateCampaignParams) (nowMs : Nat)
        (sdkInit : Except String Unit) (r : CampaignResult),
        createSearchCampaign mock p nowMs sdkInit = .ok r →
        r.success = true ∧ strStartsWith r.campaignId ("Campaign_") = true)
    ∧ (∀ (p q : CreateCampaignParams) (nowMs : Nat) (sdkInit : Except String Unit),
        createSearchCampaign false p nowMs sdkInit
          = createSearchCampaign false q nowMs sdkInit) := by
  constructor
  · intro mock p nowMs sdkInit r h
    cases mock with
    | true =>
      unfold createSearchCampaign at h
      rw [if_pos rfl] at h
      cases Except.ok.inj h
      refine ⟨rfl, ?_⟩
      show strStartsWith ("Campaign_MOCK_" ++ toString nowMs) ("Campaign_") = true
      have e1 : ("Campaign_MOCK_" : String) = "Campaign_" ++ "MOCK_" := by decide
      rw [e1, strAppend_assoc]
      exact strStartsWith_append ("Campaign_") _
    | false =>
      cases sdkInit with
      | error e => simp [createSearchCampaign] at h
      | ok u =>
        unfold createSearchCampaign at h
        rw [if_neg (by simp)] at h
        cases Except.ok.inj h
        exact ⟨rfl, strStartsWith_append ("Campaign_") _⟩
  · intro p q nowMs sdkInit
    cases sdkInit <;> rfl

/-- A concrete result of `createSearchCampaign` used by the C4 witness. -/
def c4result : CampaignResult :=
  { success := true, campaignId := "Campaign_42",
    message := "Campaign created successfully" }

/-- Witness for C4 at a concrete input. -/
theorem claim_C4_witness :
    c4result.success = true
    ∧ strStartsWith c4result.campaignId ("Campaign_") = true :=
  claim_C4.1 false ⟨"1", "n", 1, 1, [], []⟩ 42 (.ok ()) c4result (by decide)

/-! ## Claim C7: the in-memory log store keeps the most recent 100 entries -/

theorem take_append_take {α : Type} (A B : List α) (n : Nat) :
    (A ++ B.take n).take n = (A ++ B).take n := by
  rw [List.take_append_eq_append_take, List.take_append_eq_append_take,
    List.take_take, Nat.min_eq_left (Nat.sub_le _ _)]

theorem persistLog_eq (e : LogEntry) (s : List LogEntry) :
    persistLog e s = (e :: s).take MAX_MEMORY_LOGS := by
  unfold persistLog
  by_cases hl : (e :: s).length > MAX_MEMORY_LOGS
  · rw [if_pos hl]
  · rw [if_neg hl, List.take_of_length_le (Nat.le_of_not_lt hl)]

theorem logsAfter_eq (es : List LogEntry) : ∀ init : List LogEntry,
    init.length ≤ MAX_MEMORY_LOGS →
    logsAfter es init = (es.reverse ++ init).take MAX_MEMORY_LOGS := by
  induction es with
  | nil =>
    intro init h
    simp [logsAfter, List.take_of_length_le h]
  | cons e es ih =>
    intro init h
    show logsAfter es (persistLog e init) = _
    rw [persistLog_eq e init, ih _ (List.length_take_le _ _), take_append_take]
    simp [List.reverse_cons, List.append_assoc]

/-- Claim C7: starting from the empty store, after any sequence of logger
calls `memoryLogs` holds exactly the `MAX_MEMORY_LOGS = 100` most recently
appended entries, newest first; `getRecentLogs limit` returns the `limit`
newest of them (and at most `limit` with a level filter too). -/
theorem claim_C7 (entries : List LogEntry) (limit : Nat) (lv : LogLevel) :
    logsAfter entries [] = entries.reverse.take MAX_MEMORY_LOGS
    ∧ (logsAfter entries []).length ≤ MAX_MEMORY_LOGS
    ∧ getRecentLogs limit none (logsAfter entries [])
        = (logsAfter entries []).take limit
    ∧ (getRecentLogs limit none (logsAfter entries [])).length ≤ limit
    ∧ (getRecentLogs limit (some lv) (logsAfter entries [])).length ≤ limit := by
  have h := logsAfter_eq entries [] (by simp)
  refine ⟨by simpa using h, ?_, rfl, ?_, ?_⟩
  · rw [h]
    simp
  · simp [getRecentLogs]
  · simp [getRecentLogs]

/-! ## Claim C8: the diagnostic trace buffer is NOT capped -/

theorem addTraces_active (ts : List DiagnosticTrace) : ∀ l : List DiagnosticTrace,
    addTraces ts ⟨l, true⟩ = ⟨l ++ ts, true⟩ := by
  induction ts with
  | nil => intro l; simp [addTraces]
  | cons t ts ih =>
    intro l
    show addTraces ts (addTrace ⟨l, true⟩ t) = _
    rw [show addTrace ⟨l, true⟩ t = ⟨l ++ [t], true⟩ from rfl, ih]
    simp

/-- Counterexample to claim C8 as stated: no bound `N` caps the `traces`
array, because `addTrace` pushes unconditionally while the tracer is active —
`N + 1` calls after `start` always retain `N + 1` entries. -/
theorem claim_C8_counterexample :
    ¬ ∃ N : Nat, ∀ ts : List DiagnosticTrace,
        ((addTraces ts tracerStart).traces).length ≤ N := by
  rintro ⟨N, h⟩
  have h2 := h (List.replicate (N + 1) ⟨"t", "diag", "m", none⟩)
  rw [show tracerStart = (⟨[], true⟩ : TracerState) from rfl, addTraces_active] at h2
  simp at h2

/-- Amended claim C8: the trace buffer is unbounded — after any sequence of
`addTrace` calls between `start` and `end`, the report's `traces` array holds
exactly all the added entries, in order of addition. -/
theorem claim_C8 (ts : List DiagnosticTrace) :
    (addTraces ts tracerStart).traces = ts
    ∧ (addTraces ts tracerStart).isActive = true := by
  rw [show tracerStart = (⟨[], true⟩ : TracerState) from rfl, addTraces_active]
  simp

/-! ## Claim C9: invalid credentials force mock mode with the mock data -/

/-- A credential that is missing or at most 10 characters long. -/
def missingOrShort (c : Option String) : Prop :=
  match c with
  | none => True
  | some s => s.length ≤ 10

/-- Claim C9: when the developer token, client id or client secret is
missing or too short (≤ 10 characters), the client enters mock mode, and
then `getMCCAccounts` returns exactly the three `MOCK_CUSTOMER_ACCOUNTS`
unchanged while `getSubAccounts mccId` returns exactly the mock accounts
whose `parentId` equals `mccId`, for every refresh token and oracle. -/
theorem claim_C9 (dev : String) (cid cs : Option String) (cside : Bool)
    (h : dev.length ≤ 10 ∨ missingOrShort cid ∨ missingOrShort cs) :
    useMockData dev cid cs cside = true
    ∧ (∀ o : MccOracle,
        getMCCAccounts (useMockData dev cid cs cside) o = .ok MOCK_CUSTOMER_ACCOUNTS)
    ∧ (∀ (mccId : String) (o : SubOracle),
        (getSubAccounts (useMockData dev cid cs cside) mccId o).1
          = .ok (MOCK_CUSTOMER_ACCOUNTS.filter (fun a => a.parentId = some mccId))) := by
  have hv : hasValidCredentials dev cid cs = false := by
    rcases h with h | h | h
    · simp [hasValidCredentials, show ¬ (10 < dev.length) from by omega]
    · cases cid with
      | none => simp [hasValidCredentials, credentialOk]
      | some s =>
        have hs : ¬ (10 < s.length) := by
          have : s.length ≤ 10 := h
          omega
        simp [hasValidCredentials, credentialOk, hs]
    · cases cs with
      | none => simp [hasValidCredentials, credentialOk]
      | some s =>
        have hs : ¬ (10 < s.length) := by
          have : s.length ≤ 10 := h
          omega
        simp [hasValidCredentials, credentialOk, hs]
  have hm : useMockData dev cid cs cside = true := by
    simp [useMockData, hv]
  refine ⟨hm, ?_, ?_⟩
  · intro o
    rw [hm]
    rfl
  · intro mccId o
    rw [hm]
    rfl

/-- Witness for C9: a short developer token with missing id and secret. -/
theorem claim_C9_witness :
    useMockData ("short") none none false = true
    ∧ (getSubAccounts (useMockData ("short") none none false) ("9876543210")
        ⟨.error ("g"), .error ("v"), .error ("m")⟩).1
      = .ok [{ id := "5555555555", resourceName := "customers/5555555555",
               displayName := some ("Sub Account 1"), isMCC := some false,
               parentId := some ("9876543210") }] := by
  have h := claim_C9 ("short") none none false (Or.inl (by decide))
  exact ⟨h.1,
    (h.2.2 ("9876543210") ⟨.error ("g"), .error ("v"), .error ("m")⟩).trans (by decide)⟩

/-! ## Claim C5: getSubAccounts is total over errors -/

/-- Claim C5: `getSubAccounts` never propagates an exception — its result is
always `ok` — and when every lookup strategy throws it returns the empty
list, as does `listAccountsViaV11` on any error. -/
theorem claim_C5 :
    (∀ (mock : Bool) (mccId : String) (o : SubOracle),
        ∃ l, (getSubAccounts mock mccId o).1 = Except.ok l)
    ∧ (∀ (mccId : String) (o : SubOracle) (e1 e2 e3 : String),
        o.gaql = .error e1 → o.v11 = .error e2 → o.managerRest = .error e3 →
        (getSubAccounts false mccId o).1 = .ok [])
    ∧ (∀ (mccId e : String), listAccountsViaV11 mccId (.error e) = []) := by
  refine ⟨?_, ?_, ?_⟩
  · intro mock mccId o
    unfold getSubAccounts
    split_ifs <;> exact ⟨_, rfl⟩
  · intro mccId o e1 e2 e3 h1 h2 h3
    obtain ⟨g, v, m⟩ := o
    simp only at h1 h2 h3
    subst h1
    subst h2
    subst h3
    simp [getSubAccounts, gaqlStep, listAccountsViaV11, managerStep]
  · intro mccId e
    rfl

/-- Witness for C5: all three strategies throwing yields `ok []`. -/
theorem claim_C5_witness :
    (getSubAccounts false ("111") ⟨.error ("g"), .error ("v"), .error ("m")⟩).1
      = .ok [] :=
  claim_C5.2.1 ("111") ⟨.error ("g"), .error ("v"), .error ("m")⟩
    ("g") ("v") ("m") rfl rfl rfl

/-! ## Claim C6: every returned sub-account belongs to the requested MCC -/

theorem processGaqlRow_inv {mccId : String} {row : Option GaqlClientInfo}
    {acc : CustomerAccount} (h : processGaqlRow mccId row = some acc) :
    acc.parentId = some mccId ∧ acc.id ≠ mccId
    ∧ acc.resourceName = "customers/" ++ acc.id := by
  unfold processGaqlRow at h
  match row with
  | none => exact absurd h (by simp)
  | some ci =>
    dsimp only at h
    split at h
    · exact absurd h (by simp)
    · rename_i hcond
      cases Option.some.inj h
      exact ⟨rfl, fun he => hcond (Or.inl he), rfl⟩

theorem processV11Row_inv {mccId : String} {row : Option V11Client}
    {acc : CustomerAccount} (h : processV11Row mccId row = some acc) :
    acc.parentId = some mccId ∧ acc.id ≠ mccId
    ∧ acc.resourceName = "customers/" ++ acc.id := by
  unfold processV11Row at h
  match row with
  | none => exact absurd h (by simp)
  | some c =>
    dsimp only at h
    split at h
    · exact absurd h (by simp)
    · rename_i hcond
      cases Option.some.inj h
      exact ⟨rfl, hcond, rfl⟩

theorem gaqlStep_mem {mccId : String} {g : Except String (List (Option GaqlClientInfo))}
    {acc : CustomerAccount} (h : acc ∈ gaqlStep mccId g) :
    acc.parentId = some mccId ∧ acc.id ≠ mccId
    ∧ acc.resourceName = "customers/" ++ acc.id := by
  unfold gaqlStep at h
  match g with
  | .error e => exact absurd h (by simp)
  | .ok rows =>
    rw [List.mem_filterMap] at h
    obtain ⟨row, _, hrow⟩ := h
    exact processGaqlRow_inv hrow

theorem listAccountsViaV11_mem {mccId : String}
    {v : Except String (Option (List (Option V11Client)))}
    {acc : CustomerAccount} (h : acc ∈ listAccountsViaV11 mccId v) :
    acc.parentId = some mccId ∧ acc.id ≠ mccId
    ∧ acc.resourceName = "customers/" ++ acc.id := by
  unfold listAccountsViaV11 at h
  match v with
  | .error e => exact absurd h (by simp)
  | .ok none => exact absurd h (by simp)
  | .ok (some results) =>
    rw [List.mem_filterMap] at h
    obtain ⟨row, _, hrow⟩ := h
    exact processV11Row_inv hrow

theorem managerStep_mem {mccId : String} {m : Except String (Option (List String))}
    {acc : CustomerAccount} (h : acc ∈ managerStep mccId m) :
    acc.parentId = some mccId ∧ acc.id ≠ mccId
    ∧ acc.resourceName = "customers/" ++ acc.id := by
  unfold managerStep at h
  match m with
  | .error e => exact absurd h (by simp)
  | .ok none => exact absurd h (by simp)
  | .ok (some rns) =>
    dsimp only at h
    rw [List.mem_map] at h
    obtain ⟨id, hid, hacc⟩ := h
    cases hacc
    rw [List.mem_filter] at hid
    exact ⟨rfl, of_decide_eq_true hid.2, rfl⟩

/-- Case split on the four possible results of a non-mock `getSubAccounts`. -/
theorem getSubAccounts_false_cases (mccId : String) (o : SubOracle) :
    (getSubAccounts false mccId o).1 = .ok (gaqlStep mccId o.gaql)
    ∨ (getSubAccounts false mccId o).1 = .ok (listAccountsViaV11 mccId o.v11)
    ∨ (getSubAccounts false mccId o).1 = .ok (managerStep mccId o.managerRest)
    ∨ (getSubAccounts false mccId o).1 = .ok [] := by
  unfold getSubAccounts
  rw [if_neg (by simp)]
  split_ifs
  · exact Or.inl rfl
  · exact Or.inr (Or.inl rfl)
  · exact Or.inr (Or.inr (Or.inl rfl))
  · exact Or.inr (Or.inr (Or.inr rfl))

/-- Claim C6: every `CustomerAccount` in the list returned by
`getSubAccounts mccId` — in mock mode and via every non-mock strategy — has
`parentId = mccId`, an `id` different from `mccId`, and
`resourceName = "customers/" ++ id`. -/
theorem claim_C6 (mock : Bool) (mccId : String) (o : SubOracle)
    (l : List CustomerAccount) (acc : CustomerAccount)
    (hl : (getSubAccounts mock mccId o).1 = .ok l) (hmem : acc ∈ l) :
    acc.parentId = some mccId ∧ acc.id ≠ mccId
    ∧ acc.resourceName = "customers/" ++ acc.id := by
  cases mock with
  | true =>
    unfold getSubAccounts at hl
    rw [if_pos rfl] at hl
    cases Except.ok.inj hl
    rw [List.mem_filter] at hmem
    obtain ⟨hmock, hp⟩ := hmem
    have hp' := of_decide_eq_true hp
    fin_cases hmock
    · exact absurd hp' (by simp)
    · exact absurd hp' (by simp)
    · cases Option.some.inj hp'
      exact ⟨rfl, by decide, by decide⟩
  | false =>
    rcases getSubAccounts_false_cases mccId o with hc | hc | hc | hc <;>
      rw [hc] at hl <;> cases Except.ok.inj hl
    · exact gaqlStep_mem hmem
    · exact listAccountsViaV11_mem hmem
    · exact managerStep_mem hmem
    · exact absurd hmem (by simp)

/-- The mock sub-account of the MCC `9876543210`, used by the C6 witness. -/
def mockSubAccount : CustomerAccount :=
  { id := "5555555555", resourceName := "customers/5555555555",
    displayName := some ("Sub Account 1"), isMCC := some false,
    parentId := some ("9876543210") }

/-- Witness for C6 at the mock sub-account. -/
theorem claim_C6_witness :
    mockSubAccount.parentId = some ("9876543210")
    ∧ mockSubAccount.id ≠ "9876543210"
    ∧ mockSubAccount.resourceName = "customers/" ++ mockSubAccount.id :=
  claim_C6 true ("9876543210") ⟨.error ("g"), .error ("v"), .error ("m")⟩
    [mockSubAccount] mockSubAccount (by decide) (by decide)

/-! ## Claim C1: the order of the listing strategies -/

/-- Whether `l1` is a subsequence of `l2` (order-preserving selection).  A
method that "attempts its strategies in the order s1 → s2 → …, moving on
only on failure" produces an attempt trace that is a subsequence of
`[s1, s2, …]`. -/
def isSubseqOf : List Strategy → List Strategy → Bool
  | [], _ => true
  | _ :: _, [] => false
  | a :: as, b :: bs => if a = b then isSubseqOf as bs else isSubseqOf (a :: as) bs

/-- The strategy order asserted by the specification:
SDK call → direct REST → GAQL query → hard-coded fallback list. -/
def claimedStrategyOrder : List Strategy :=
  [Strategy.sdk, Strategy.directRest, Strategy.gaqlQuery, Strategy.fallbackList]

/-- Oracle where the refresh token is valid but both account-listing calls
fail. -/
def allFailAccess : AccessOracle :=
  ⟨true, .error ("rest failed"), .error ("sdk failed")⟩

/-- Oracle where all three sub-account strategies throw. -/
def allFailSub : SubOracle :=
  ⟨.error ("gaql failed"), .error ("v11 failed"), .error ("manager failed")⟩

/-- Oracle where the GAQL query succeeds but returns zero rows. -/
def gaqlEmptySub : SubOracle :=
  ⟨.ok [], .error ("v11 failed"), .error ("manager failed")⟩

/-- Counterexample to claim C1 as stated: (i) `getAccessibleCustomers`
attempts the direct REST call before the SDK call, so its attempt trace is
not a subsequence of the claimed order SDK → REST → GAQL → fallback list;
(ii) when every strategy fails, `getSubAccounts` falls back to the empty
list, not to a hard-coded list of accounts; (iii) `getSubAccounts` moves on
to the v11 strategy even when the GAQL query succeeds (with zero rows), so
the next strategy does not run only on failure of the previous one. -/
theorem claim_C1_counterexample :
    isSubseqOf (getAccessibleCustomers false allFailAccess).2 claimedStrategyOrder = false
    ∧ (getSubAccounts false ("111") allFailSub).1 = .ok []
    ∧ Strategy.v11Api ∈ (getSubAccounts false ("111") gaqlEmptySub).2 := by
  decide

/-- Amended claim C1: in non-mock mode `getAccessibleCustomers` attempts the
direct REST call first and the SDK call only when the REST call fails, while
`getSubAccounts` attempts the GAQL query, then the v11 REST call, then the
client-manager REST call, moving to the next strategy exactly when the
previous one fails or yields no accounts, and when all three yield nothing
it returns the empty list (not a hard-coded fallback list). -/
theorem claim_C1 :
    (∀ o : AccessOracle, o.tokenValid = true →
        (getAccessibleCustomers false o).2
          = Strategy.directRest ::
              (match o.directRest with
               | .ok _ => []
               | .error _ => [Strategy.sdk]))
    ∧ (∀ (mccId : String) (o : SubOracle),
        (getSubAccounts false mccId o).2
          = Strategy.gaqlQuery ::
              (if gaqlStep mccId o.gaql ≠ [] then []
               else Strategy.v11Api ::
                 (if listAccountsViaV11 mccId o.v11 ≠ [] then []
                  else [Strategy.managerRest])))
    ∧ (∀ (mccId : String) (o : SubOracle),
        gaqlStep mccId o.gaql = [] → listAccountsViaV11 mccId o.v11 = [] →
        managerStep mccId o.managerRest = [] →
        (getSubAccounts false mccId o).1 = .ok []) := by
  refine ⟨?_, ?_, ?_⟩
  · intro o h
    obtain ⟨tv, dr, sdk⟩ := o
    simp only at h
    subst h
    cases dr with
    | ok r => rfl
    | error e =>
      cases sdk with
      | ok r => rfl
      | error e2 => rfl
  · intro mccId o
    unfold getSubAccounts
    rw [if_neg (by simp)]
    split_ifs with h1 h2 h3 <;> rfl
  · intro mccId o h1 h2 h3
    unfold getSubAccounts
    rw [if_neg (by simp), if_neg (not_not_intro h1), if_neg (not_not_intro h2),
      if_neg (not_not_intro h3)]

/-- Witness for the amended C1 at concrete all-failing oracles. -/
theorem claim_C1_witness :
    (getAccessibleCustomers false allFailAccess).2 = [Strategy.directRest, Strategy.sdk]
    ∧ (getSubAccounts false ("111") allFailSub).1 = .ok [] :=
  ⟨claim_C1.1 allFailAccess rfl, claim_C1.2.2 ("111") allFailSub rfl rfl rfl⟩

/-! ## Claim C3: campaign form validation and the POST route's 400s -/

/-- Whether a response of the campaigns POST route is an HTTP 400 validation
rejection. -/
def isBadRequest : PostResult → Bool
  | .badRequest _ => true
  | _ => false

/-- A body violating the headline count, the description count, or the
30/90 character limits (a body missing one of the two arrays violates the
corresponding count requirement). -/
def violatesCampaignLimits (b : CampaignBody) : Bool :=
  match b.headlines, b.descriptions with
  | some hs, some ds =>
    decide (hs.length ≠ 10) || decide (ds.length < 1)
      || hs.any (fun h => h.length > 30) || ds.any (fun d => d.length > 90)
  | _, _ => true

/-- Claim C3: `campaignSchema` accepts an input record iff `customerId` is
non-empty, `name` has 1–100 characters, `budget` lies in `[1, 10000]`,
`maxCpc` lies in `[0.01, 1000]`, `headlines` is exactly 10 non-empty strings
of at most 30 characters, and `descriptions` is at least 1 non-empty string
of at most 90 characters; and the campaigns POST route answers 400 to every
authenticated body violating the headline count, description count, or the
30/90 limits. -/
theorem claim_C3 :
    (∀ d : CampaignInput,
        campaignSchemaAccepts d = true ↔
          (d.customerId ≠ "" ∧ 1 ≤ d.name.length ∧ d.name.length ≤ 100
           ∧ (1 : ℚ) ≤ d.budget ∧ d.budget ≤ 10000
           ∧ (1 : ℚ)/100 ≤ d.maxCpc ∧ d.maxCpc ≤ 1000
           ∧ d.headlines.length = 10
           ∧ (∀ h ∈ d.headlines, h ≠ "" ∧ h.length ≤ 30)
           ∧ 1 ≤ d.descriptions.length
           ∧ (∀ s ∈ d.descriptions, s ≠ "" ∧ s.length ≤ 90)))
    ∧ (∀ (body : CampaignBody) (cr : Except String CampaignResult),
        violatesCampaignLimits body = true →
        isBadRequest (campaignsPOST true body cr) = true) := by
  constructor
  · intro d
    unfold campaignSchemaAccepts
    simp only [Bool.and_eq_true, decide_eq_true_eq, List.all_eq_true, ge_iff_le]
    constructor
    · rintro ⟨⟨⟨⟨⟨hc, hn1, hn2⟩, hb1, hb2⟩, hm1, hm2⟩, hh, hh10⟩, hd, hd1⟩
      refine ⟨(one_le_length_iff _).mp hc, hn1, hn2, hb1, hb2, hm1, hm2, hh10,
        ?_, hd1, ?_⟩
      · intro x hx
        exact ⟨(one_le_length_iff _).mp (hh x hx).2, (hh x hx).1⟩
      · intro x hx
        exact ⟨(one_le_length_iff _).mp (hd x hx).2, (hd x hx).1⟩
    · rintro ⟨hc, hn1, hn2, hb1, hb2, hm1, hm2, hh10, hhall, hd1, hdall⟩
      refine ⟨⟨⟨⟨⟨(one_le_length_iff _).mpr hc, hn1, hn2⟩, hb1, hb2⟩, hm1, hm2⟩,
        ?_, hh10⟩, ?_, hd1⟩
      · intro x hx
        exact ⟨(hhall x hx).2, (one_le_length_iff _).mpr (hhall x hx).1⟩
      · intro x hx
        exact ⟨(hdall x hx).2, (one_le_length_iff _).mpr (hdall x hx).1⟩
  · intro body cr hv
    obtain ⟨bc, bn, bb, bm, bh, bd⟩ := body
    unfold campaignsPOST
    rw [if_neg (by simp)]
    cases bh with
    | none => rw [if_pos (by simp [truthyArr])]; rfl
    | some hs =>
      cases bd with
      | none => rw [if_pos (by simp [truthyArr])]; rfl
      | some ds =>
        simp only [violatesCampaignLimits, Bool.or_eq_true, decide_eq_true_eq,
          List.any_eq_true] at hv
        by_cases hguard : (!truthyStr bc || !truthyStr bn || !truthyNum bb
            || !truthyNum bm || !truthyArr (some hs) || !truthyArr (some ds)) = true
        · rw [if_pos hguard]; rfl
        · rw [if_neg hguard]
          dsimp only
          split_ifs with h10 h1d h30 h90
          · rfl
          · rfl
          · rfl
          · rfl
          · exfalso
            rcases hv with ((h | h) | h) | h
            · exact h10 h
            · exact h1d h
            · exact h30 (by simpa [List.any_eq_true] using h)
            · exact h90 (by simpa [List.any_eq_true] using h)

/-- A concrete violating body (one headline instead of ten) for the C3
witness. -/
def c3body : CampaignBody :=
  { customerId := some ("123"), name := some ("n"), budget := some 5,
    maxCpc := some 1, headlines := some ["a"], descriptions := some ["d"] }

/-- Witness for C3 at a concrete violating body. -/
theorem claim_C3_witness :
    isBadRequest (campaignsPOST true c3body (.error ("x"))) = true :=
  claim_C3.2 c3body (.error ("x")) (by decide)

/-! ## Claims C2 and C10: hierarchy route cache and response invariants -/

theorem cacheGet_set_self (c : HierarchyCache) (k : String) (e : CacheEntry) :
    cacheGet (cacheSet c k e) k = some e := by
  unfold cacheGet cacheSet
  induction c with
  | nil => simp
  | cons p c _ =>
    by_cases hp : p.1 = k
    · simp [List.filter_cons, hp]
    · simp [List.filter_cons, hp, List.find?_cons]

/-- When the fresh path answers success, the new cache holds exactly that
payload under the key with the request's timestamp. -/
theorem hierarchyFresh_cache (cache : HierarchyCache) (key mccId : String)
    (r : RouteRequest) (d : HierarchyData)
    (h : (hierarchyFresh cache key mccId r).1 = .success d) :
    (hierarchyFresh cache key mccId r).2
      = cacheSet cache key { data := d, timestamp := r.now } := by
  unfold hierarchyFresh at *
  cases hf : (fetchedList r.mccFetch).find? (fun a => a.id = mccId) with
  | some acc =>
    rw [hf] at h
    dsimp only at h ⊢
    cases RouteResponse.success.inj h
    rfl
  | none =>
    rw [hf] at h
    dsimp only at h ⊢
    cases hff : fetchFailed r.mccFetch with
    | true =>
      rw [hff, if_pos rfl] at h
      rw [if_pos rfl]
      cases RouteResponse.success.inj h
      rfl
    | false =>
      rw [hff, if_neg (by simp)] at h
      exact absurd h (by simp)

/-- Every success payload of the fresh path carries the requested MCC id
with the `isMCC` flag forced to true. -/
theorem hierarchyFresh_mccId (cache : HierarchyCache) (key mccId : String)
    (r : RouteRequest) (d : HierarchyData)
    (h : (hierarchyFresh cache key mccId r).1 = .success d) :
    d.mccAccount.id = mccId ∧ d.mccAccount.isMCC = some true := by
  unfold hierarchyFresh at h
  cases hf : (fetchedList r.mccFetch).find? (fun a => a.id = mccId) with
  | some acc =>
    rw [hf] at h
    dsimp only at h
    cases RouteResponse.success.inj h
    have hp := List.find?_some hf
    have hacc : acc.id = mccId := of_decide_eq_true hp
    exact ⟨hacc, rfl⟩
  | none =>
    rw [hf] at h
    dsimp only at h
    cases hff : fetchFailed r.mccFetch with
    | true =>
      rw [hff, if_pos rfl] at h
      cases RouteResponse.success.inj h
      exact ⟨rfl, rfl⟩
    | false =>
      rw [hff, if_neg (by simp)] at h
      exact absurd h (by simp)

/-- The fresh path answers 404 `MCC_NOT_FOUND` exactly when the MCC listing
succeeded and contains no account with the requested id. -/
theorem hierarchyFresh_notFound_iff (cache : HierarchyCache) (key mccId : String)
    (r : RouteRequest) :
    (hierarchyFresh cache key mccId r).1 = .mccNotFound ↔
      ∃ l, r.mccFetch = .ok l ∧ ∀ a ∈ l, a.id ≠ mccId := by
  unfold hierarchyFresh
  cases hmf : r.mccFetch with
  | error e =>
    simp [fetchedList, fetchFailed]
  | ok l =>
    rw [show fetchedList (Except.ok l) = l from rfl]
    cases hf : l.find? (fun a => a.id = mccId) with
    | some acc =>
      dsimp only
      constructor
      · intro h
        exact absurd h (by simp)
      · rintro ⟨l2, hl2, hall⟩
        cases Except.ok.inj hl2
        have hp := List.find?_some hf
        have hacc : acc.id = mccId := of_decide_eq_true hp
        exact absurd hacc (hall acc (List.mem_of_find?_eq_some hf))
    | none =>
      dsimp only
      rw [show fetchFailed (Except.ok l) = false from rfl, if_neg (by simp)]
      constructor
      · intro _
        exact ⟨l, rfl, fun a ha hEq =>
          (List.find?_eq_none.mp hf a ha) (decide_eq_true hEq)⟩
      · intro _
        rfl

/-- Under a valid authenticated request, whenever the handler reports that
the Google Ads client was invoked, its outcome is the fresh-fetch outcome
for some starting cache. -/
theorem hierarchyGET_fresh (cache : HierarchyCache) (r : RouteRequest) (m : String)
    (hmr : r.mccId = some m) (hs : r.hasSession = true) (hr : r.hasRefreshToken = true)
    (hfresh : (hierarchyGET cache r).2.2 = true) :
    ∃ c1 : HierarchyCache, hierarchyGET cache r
      = ((hierarchyFresh c1 (cacheKey m r.email) m r).1,
         (hierarchyFresh c1 (cacheKey m r.email) m r).2, true) := by
  revert hfresh
  unfold hierarchyGET
  rw [hmr]
  simp only [hs, hr, Bool.not_true, Bool.false_eq_true, if_false]
  cases hcc : r.clearCache with
  | true =>
    rw [if_pos rfl]
    cases hget : cacheGet (cacheDelete cache (cacheKey m r.email)) (cacheKey m r.email) with
    | some e =>
      dsimp only
      rw [if_neg (by simp)]
      intro _
      exact ⟨_, rfl⟩
    | none =>
      intro _
      exact ⟨_, rfl⟩
  | false =>
    rw [if_neg (by simp)]
    cases hget : cacheGet cache (cacheKey m r.email) with
    | some e =>
      dsimp only
      cases hlt : decide (r.now - e.timestamp < CACHE_TTL) with
      | true => simp
      | false =>
        rw [if_neg (by simp)]
        intro _
        exact ⟨_, rfl⟩
    | none =>
      intro _
      exact ⟨_, rfl⟩

/-- Claim C2: for an authenticated GET without `clear_cache`, a cache entry
under the `(mccId, email)` key younger than one hour is returned as-is
without invoking the Google Ads client and without touching the cache; when
the entry is absent or at least one hour old, the client is invoked and any
`success: true` response is stored under that key with the current time. -/
theorem claim_C2 (cache : HierarchyCache) (r : RouteRequest) (m : String)
    (hmr : r.mccId = some m) (hs : r.hasSession = true)
    (hr : r.hasRefreshToken = true) (hc : r.clearCache = false) :
    (∀ e : CacheEntry, cacheGet cache (cacheKey m r.email) = some e →
        r.now - e.timestamp < CACHE_TTL →
        hierarchyGET cache r = (.success e.data, cache, false))
    ∧ (cacheGet cache (cacheKey m r.email) = none →
        (hierarchyGET cache r).2.2 = true
        ∧ ∀ d, (hierarchyGET cache r).1 = .success d →
            cacheGet (hierarchyGET cache r).2.1 (cacheKey m r.email)
              = some { data := d, timestamp := r.now })
    ∧ (∀ e : CacheEntry, cacheGet cache (cacheKey m r.email) = some e →
        CACHE_TTL ≤ r.now - e.timestamp →
        (hierarchyGET cache r).2.2 = true
        ∧ ∀ d, (hierarchyGET cache r).1 = .success d →
            cacheGet (hierarchyGET cache r).2.1 (cacheKey m r.email)
              = some { data := d, timestamp := r.now }) := by
  refine ⟨?_, ?_, ?_⟩
  · intro e hget htl
    unfold hierarchyGET
    rw [hmr]
    simp [hs, hr, hc, hget, htl]
  · intro hget
    have hg : hierarchyGET cache r
        = ((hierarchyFresh cache (cacheKey m r.email) m r).1,
           (hierarchyFresh cache (cacheKey m r.email) m r).2, true) := by
      unfold hierarchyGET
      rw [hmr]
      simp [hs, hr, hc, hget]
    rw [hg]
    refine ⟨rfl, ?_⟩
    intro d hd
    dsimp only at hd ⊢
    rw [hierarchyFresh_cache _ _ _ _ _ hd]
    exact cacheGet_set_self _ _ _
  · intro e hget htl
    have hg : hierarchyGET cache r
        = ((hierarchyFresh cache (cacheKey m r.email) m r).1,
           (hierarchyFresh cache (cacheKey m r.email) m r).2, true) := by
      unfold hierarchyGET
      rw [hmr]
      simp [hs, hr, hc, hget, show ¬ (r.now - e.timestamp < CACHE_TTL) from by omega]
    rw [hg]
    refine ⟨rfl, ?_⟩
    intro d hd
    dsimp only at hd ⊢
    rw [hierarchyFresh_cache _ _ _ _ _ hd]
    exact cacheGet_set_self _ _ _

/-- A cached hierarchy payload used by the C2 witness. -/
def c2data : HierarchyData :=
  { mccAccount := { id := "1234567890", resourceName := "customers/1234567890",
                    displayName := some ("Test Account 1"), isMCC := some true,
                    parentId := none },
    subAccounts := [], warnings := none }

/-- A cache entry stored at time 0 for the C2 witness. -/
def c2entry : CacheEntry := { data := c2data, timestamp := 0 }

/-- A GET request hitting the cache for the C2 witness. -/
def c2req : RouteRequest :=
  { mccId := some ("1234567890"), clearCache := false, hasSession := true,
    email := some ("user@example.com"), hasRefreshToken := true, now := 5000,
    mccFetch := .error ("unused"), subFetch := .error ("unused") }

/-- The cache holding the C2 witness entry under the request's key. -/
def c2cache : HierarchyCache :=
  [(cacheKey ("1234567890") (some ("user@example.com")), c2entry)]

/-- Witness for C2: a fresh entry is served from the cache verbatim, with
no client call and no cache mutation. -/
theorem claim_C2_witness :
    hierarchyGET c2cache c2req = (.success c2data, c2cache, false) :=
  (claim_C2 c2cache c2req ("1234567890") rfl rfl rfl rfl).1 c2entry
    (by decide) (by decide)

/-- The first request of the C10 counterexample: `mccId = "12-a"` for the
user `b@c`, whose MCC listing fails, so a placeholder success response is
cached under the key `hierarchy-12-a-b@c`. -/
def c10reqA : RouteRequest :=
  { mccId := some ("12-a"), clearCache := false, hasSession := true,
    email := some ("b@c"), hasRefreshToken := true, now := 0,
    mccFetch := .error ("mcc listing failed"), subFetch := .ok [] }

/-- The cache state after the first C10 request, starting from empty. -/
def c10cache1 : HierarchyCache := (hierarchyGET ([] : HierarchyCache) c10reqA).2.1

/-- The second request of the C10 counterexample: `mccId = "12"` for the
user `a-b@c`; its cache key is also `hierarchy-12-a-b@c`. -/
def c10reqB : RouteRequest :=
  { mccId := some ("12"), clearCache := false, hasSession := true,
    email := some ("a-b@c"), hasRefreshToken := true, now := 1000,
    mccFetch := .error ("unused"), subFetch := .error ("unused") }

/-- The payload cached by the first C10 request. -/
def c10dataA : HierarchyData :=
  { mccAccount := placeholderMcc ("12-a"), subAccounts := [],
    warnings := some (true, false) }

/-- Counterexample to claim C10 as stated: the compound cache key
`hierarchy-${mccId}-${email}` does not determine the `(email, mccId)` pair,
so the authenticated request for `mccId = "12"` by user `a-b@c` is served
the cached `success: true` response of user `b@c`'s request for
`mccId = "12-a"`, whose `mccAccount.id` is `"12-a"`, not the requested
`"12"`. -/
theorem claim_C10_counterexample :
    c10reqB.mccId = some ("12")
    ∧ (hierarchyGET c10cache1 c10reqB).1 = .success c10dataA
    ∧ c10dataA.mccAccount.id = "12-a" := by
  decide

/-- Amended claim C10: every `success: true` response computed by a fresh
fetch (one that invoked the Google Ads client) has `mccAccount.id` equal to
the requested mccId and `isMCC` true — including the placeholder case — and
such a request yields the 404 `MCC_NOT_FOUND` exactly when the MCC listing
succeeded and contains no account with that id.  (A cache hit replays a
previously stored success response verbatim, which carries the requested id
only when the compound cache key determines the pair.) -/
theorem claim_C10 (cache : HierarchyCache) (r : RouteRequest) (m : String)
    (hmr : r.mccId = some m) (hs : r.hasSession = true) (hr : r.hasRefreshToken = true)
    (hfresh : (hierarchyGET cache r).2.2 = true) :
    (∀ d, (hierarchyGET cache r).1 = .success d →
        d.mccAccount.id = m ∧ d.mccAccount.isMCC = some true)
    ∧ ((hierarchyGET cache r).1 = .mccNotFound ↔
        ∃ l, r.mccFetch = .ok l ∧ ∀ a ∈ l, a.id ≠ m) := by
  obtain ⟨c1, hg⟩ := hierarchyGET_fresh cache r m hmr hs hr hfresh
  rw [hg]
  dsimp only
  exact ⟨fun d hd => hierarchyFresh_mccId c1 (cacheKey m r.email) m r d hd,
    hierarchyFresh_notFound_iff c1 (cacheKey m r.email) m r⟩

/-- A fresh request resolving the mock MCC account, for the C10 witness. -/
def c10reqW : RouteRequest :=
  { mccId := some ("9876543210"), clearCache := false, hasSession := true,
    email := some ("w@x"), hasRefreshToken := true, now := 0,
    mccFetch := .ok MOCK_CUSTOMER_ACCOUNTS, subFetch := .ok [] }

/-- The payload the C10 witness request produces. -/
def c10dataW : HierarchyData :=
  freshData { id := "9876543210", resourceName := "customers/9876543210",
              displayName := some ("Test MCC Account"), isMCC := some true,
              parentId := none } c10reqW

/-- Witness for the amended C10 at a concrete fresh request. -/
theorem claim_C10_witness :
    c10dataW.mccAccount.id = "9876543210"
    ∧ c10dataW.mccAccount.isMCC = some true :=
  (claim_C10 ([] : HierarchyCache) c10reqW ("9876543210") rfl rfl rfl
    (by decide)).1 c10dataW (by decide)

end GadsCreator
